import Mathlib

/-!
Verification development for `tease` (src/tease.c), a wrapper that runs a
child command, redirects its combined stdout/stderr into a scratch file,
polls that file while the child runs, displays the trailing line fragment,
and on child failure dumps the whole file.

The C program is shallowly embedded: bytes are `Nat` (newline = 10, NUL = 0),
file contents and buffers are `List Nat`, and the interaction with the
operating system (mkstemp, posix_spawn, fstat, lseek, read, waitpid, unlink,
close) is driven by an environment record that supplies each call's outcome,
exactly following the branch structure of `main`.
-/

namespace Tease

/-- Constant `EXIT_SUCCESS` as used by `main` (stdlib value 0). -/
def EXIT_SUCCESS : Nat := 0

/-- Constant `EXIT_FAILURE` as used by `main` (stdlib value 1). -/
def EXIT_FAILURE : Nat := 1

/-- Constant `HOW_MANY_BYTES_FROM_THE_END` from tease.c line 41: the window
capacity W = 500. -/
def HOW_MANY_BYTES_FROM_THE_END : Nat := 500

/-- Constant `PRINT_BUF_SIZE` from tease.c line 42 (the full-dump read loop
reads `PRINT_BUF_SIZE - 1` bytes per iteration). -/
def PRINT_BUF_SIZE : Nat := 8192

/-- The helper `min` from tease.c lines 65-67: `n1 < n2 ? n1 : n2`. -/
def min (n1 n2 : Nat) : Nat := if n1 < n2 then n1 else n2

/-- The backward newline scan of tease.c lines 211-216.  `scanBack w q`
models `pos_of_nl = q; while (pos_of_nl > 0) { if (w[--pos_of_nl] == '\n')
break; }` and returns the final value of `pos_of_nl`: starting from `q`,
indices `q-1, q-2, ..., 0` are inspected in order and the first index
holding a newline (byte 10) is returned, `0` if none is found. -/
def scanBack (w : List Nat) : Nat → Nat
  | 0 => 0
  | p + 1 => if w.getD p 0 = 10 then p else scanBack w p

/-- The trailing-newline trim of tease.c lines 207-209: if the last byte of
the window read is a newline, it is overwritten with NUL, which for the
C string printed later is the same as shortening the window by one byte. -/
def trimmedWindow (w : List Nat) : List Nat :=
  if w.getD (w.length - 1) 0 = 10 then w.take (w.length - 1) else w

/-- The byte region selected by the tail algorithm of tease.c lines 202-218:
after the trailing-newline trim, the fragment printed is the C string
starting at `last_line + pos_of_nl + (pos_of_nl != 0)`.  This definition
returns that slice of the (trimmed) window. -/
def extractFragment (w : List Nat) : List Nat :=
  (trimmedWindow w).drop
    (scanBack w (w.length - 1) + if scanBack w (w.length - 1) = 0 then 0 else 1)

/-- What `printf("%s", ...)` actually emits for the fragment slice: the
bytes up to (excluding) the first NUL. -/
def printedFragment (w : List Nat) : List Nat :=
  (extractFragment w).takeWhile (fun b => b != 0)

/-- The largest index `i < q` with `w[i] = 10`, if any.  Used to state the
specification of the backward scan. -/
def lastNlBefore (w : List Nat) (q : Nat) : Option Nat :=
  (List.range q).reverse.find? (fun i => w.getD i 0 = 10)

/-- Modelled from the claim's words (spec section 8 / claim C3), for the
refinement comparison: for a window whose final byte is a newline, drop
that newline and return everything strictly after the most recent
remaining newline (everything, if there is none). -/
def c3SpecFragment (w : List Nat) : List Nat :=
  match lastNlBefore w (w.length - 1) with
  | some i => (w.take (w.length - 1)).drop (i + 1)
  | none => w.take (w.length - 1)

/-- The behaviour the code actually has on a window ending in a newline:
like `c3SpecFragment`, except that a most-recent newline sitting at index 0
is not skipped (the code's `pos_of_nl + (pos_of_nl != 0)` adds nothing when
`pos_of_nl = 0`), so the fragment then starts with that newline byte. -/
def c3AmendedFragment (w : List Nat) : List Nat :=
  match lastNlBefore w (w.length - 1) with
  | some i =>
      if i = 0 then w.take (w.length - 1) else (w.take (w.length - 1)).drop (i + 1)
  | none => w.take (w.length - 1)

/-- The full-content dump loop of tease.c lines 240-250: read the file from
the start in chunks of `PRINT_BUF_SIZE - 1 = 8191` bytes, NUL-terminate each
chunk and print it with `printf("%s", buf)`, which stops at the first NUL
byte inside the chunk.  `fuel` bounds the recursion; `dumpOutput` supplies
`l.length`, which is always sufficient since every iteration consumes at
least one byte. -/
def dumpOutputAux (fuel : Nat) (l : List Nat) : List Nat :=
  match fuel, l with
  | _, [] => []
  | 0, _ => []
  | fuel + 1, l =>
      (l.take (PRINT_BUF_SIZE - 1)).takeWhile (fun b => b != 0)
        ++ dumpOutputAux fuel (l.drop (PRINT_BUF_SIZE - 1))

/-- The bytes the dump loop of tease.c lines 240-250 writes to stdout for a
scratch file whose content is `l`. -/
def dumpOutput (l : List Nat) : List Nat :=
  dumpOutputAux l.length l

/-- TailReader state: `last_size` (tease.c line 176) and the `last_line`
window buffer (line 177, modelled as the byte list last read into it). -/
structure TailState where
  last_size : Nat
  last_line : List Nat
deriving DecidableEq

/-- One TailReader poll (tease.c lines 185-223) with the file unchanged
while the iteration runs and stat/seek/read succeeding: if the file grew
past `last_size`, the final `min 500 size` bytes are read into the window,
the tail fragment is extracted, and `last_size` is advanced to the observed
size; otherwise nothing happens. -/
def poll (content : List Nat) (st : TailState) : Option (List Nat) × TailState :=
  if st.last_size < content.length then
    let w := content.drop (content.length - min HOW_MANY_BYTES_FROM_THE_END content.length)
    (some (extractFragment w), { last_size := content.length, last_line := w })
  else
    (none, st)

/-- `how_many_bytes` of tease.c line 190: `min(HOW_MANY_BYTES_FROM_THE_END,
file_status.st_size)`. -/
def how_many_bytes (st_size : Nat) : Nat :=
  min HOW_MANY_BYTES_FROM_THE_END st_size

/-- The offset the `lseek` of tease.c line 191 positions at:
`st_size - how_many_bytes` from the start of the file. -/
def readOffset (st_size : Nat) : Nat :=
  st_size - how_many_bytes st_size

/-- The byte count returned by the `read` of tease.c line 197: the call
requests `HOW_MANY_BYTES_FROM_THE_END` bytes from `readOffset st_size`, and
on a regular file returns the smaller of the request and the bytes
remaining before end-of-file, where `sizeAtRead` is the file's size when
the read happens. -/
def nreadOf (st_size sizeAtRead : Nat) : Nat :=
  min HOW_MANY_BYTES_FROM_THE_END (sizeAtRead - readOffset st_size)

/-- Outcome of the `posix_spawnp` call of tease.c lines 150-157: success,
`ENOENT` (command not found), or any other error code. -/
inductive SpawnRes
  | ok
  | enoent
  | othererr
deriving DecidableEq

/-- Outcome of one `waitpid(child_pid, &stat_loc, WNOHANG)` call (tease.c
line 229): negative result, zero (child still running), or positive with
the child's status word, summarised by `WIFEXITED` and `WEXITSTATUS`. -/
inductive WaitRes
  | fail
  | running
  | done (ifexited : Bool) (code : Nat)
deriving DecidableEq

/-- The operating-system responses consumed by one iteration of the poll
loop (tease.c lines 181-259): the `fstat` outcome (`none` = failure,
`some size` = reported size), whether `lseek` succeeds, the bytes a
successful `read` returns (`none` = read failure), and the `waitpid`
outcome. -/
structure IterEvent where
  statRes : Option Nat
  seekOk : Bool
  readBytes : Option (List Nat)
  waitRes : WaitRes
deriving DecidableEq

/-- The environment of one execution of `main`: the argument count and the
outcome of every operating-system call the program makes, in program
order. -/
structure Env where
  argc : Nat
  mkstempCwdOk : Bool
  mkstempTmpOk : Bool
  initOk : Bool
  dup2OutOk : Bool
  dup2ErrOk : Bool
  spawnRes : SpawnRes
  iters : List IterEvent
  fileContent : List Nat
  unlinkOk : Bool
  closeOk : Bool
  destroyOk : Bool
deriving DecidableEq

/-- Events written to standard output, in order. -/
inductive OutEvent
  | frag (bytes : List Nat)
  | clearLine
  | dump (bytes : List Nat)
  | newlineOut
deriving DecidableEq

/-- Diagnostics written to standard error, one constructor per distinct
message site in tease.c.  `unlinkFailedMsg`/`pleaseDeleteMsg` carry whether
the cwd-file messages (lines 274-275) or the /tmp-file messages (lines
279-280) were printed. -/
inductive ErrEvent
  | usage
  | cwdFailed
  | tmpFailed
  | initFailed
  | dupOutFailed
  | dupErrFailed
  | unknownCommand
  | spawnFailed
  | statFailed
  | seekFailed
  | readFailed
  | waitFailed
  | destroyFailed
  | unlinkFailedMsg (cwd : Bool)
  | pleaseDeleteMsg (cwd : Bool)
  | closeFailed
deriving DecidableEq

/-- Externally visible actions the program performs, in order: a `mkstemp`
attempt (in the cwd or in /tmp), the `posix_spawnp` call, the creation of a
child process (only on a successful spawn), a non-blocking `waitpid` check,
the `posix_spawn_file_actions_destroy`, the `unlink` of the scratch file
(cwd or /tmp name), and the `close` of its descriptor. -/
inductive Act
  | mkstempAttempt (cwd : Bool)
  | spawnCall
  | childCreated
  | waitCheck
  | destroyFa
  | unlink (cwd : Bool)
  | closeFd
deriving DecidableEq

/-- The `cleanup_temp_file` block of tease.c lines 271-286 (preceded, when
`withDestroy` is set, by the `cleanup` block of lines 266-269): destroy the
file actions, `unlink` the scratch file chosen by `delete_file_in_cwd`,
then `close` its descriptor; each failure is only warned about.  Returns
the stderr events and the actions, in order. -/
def cleanupTrace (env : Env) (withDestroy : Bool) : List ErrEvent × List Act :=
  let destroyE : List ErrEvent :=
    if withDestroy && !env.destroyOk then [.destroyFailed] else []
  let destroyA : List Act := if withDestroy then [.destroyFa] else []
  let unlinkE : List ErrEvent :=
    if env.unlinkOk then []
    else [.unlinkFailedMsg env.mkstempCwdOk, .pleaseDeleteMsg env.mkstempCwdOk]
  let closeE : List ErrEvent := if env.closeOk then [] else [.closeFailed]
  (destroyE ++ unlinkE ++ closeE, destroyA ++ [.unlink env.mkstempCwdOk, .closeFd])

/-- Result of a terminated execution of `main`: the returned exit status
and the stdout, stderr and action traces. -/
structure Result where
  exit : Nat
  out : List OutEvent
  err : List ErrEvent
  acts : List Act
deriving DecidableEq

/-- Outcome of `preRun`: either `main` terminated before the poll loop
(with a full `Result`), or it reached the loop carrying the stderr and
action traces accumulated so far. -/
inductive PreOutcome
  | earlyExit (r : Result)
  | proceed (errs : List ErrEvent) (acts : List Act)
deriving DecidableEq

/-- The pre-loop part of `main` (tease.c lines 80-169), following its
branch structure exactly: usage check; `mkstemp` in the cwd with a single
retry in /tmp (lines 86-95); `posix_spawn_file_actions_init` failure goes
to `cleanup_temp_file` (line 120) and the two `adddup2` failures go to
`cleanup` (lines 125, 146) — all three with `exit_status` still at
`EXIT_SUCCESS`; then `posix_spawnp`, whose `ENOENT` and generic failures
set `exit_status = EXIT_FAILURE` and go to `cleanup` (lines 159-169). -/
def preRunFrom (env : Env) (errs : List ErrEvent) (acts : List Act) : PreOutcome :=
  if !env.initOk then
    .earlyExit ⟨EXIT_SUCCESS, [], errs ++ [.initFailed] ++ (cleanupTrace env false).1,
      acts ++ (cleanupTrace env false).2⟩
  else if !env.dup2OutOk then
    .earlyExit ⟨EXIT_SUCCESS, [], errs ++ [.dupOutFailed] ++ (cleanupTrace env true).1,
      acts ++ (cleanupTrace env true).2⟩
  else if !env.dup2ErrOk then
    .earlyExit ⟨EXIT_SUCCESS, [], errs ++ [.dupErrFailed] ++ (cleanupTrace env true).1,
      acts ++ (cleanupTrace env true).2⟩
  else
    match env.spawnRes with
    | .enoent =>
        .earlyExit ⟨EXIT_FAILURE, [], errs ++ [.unknownCommand] ++ (cleanupTrace env true).1,
          acts ++ [.spawnCall] ++ (cleanupTrace env true).2⟩
    | .othererr =>
        .earlyExit ⟨EXIT_FAILURE, [], errs ++ [.spawnFailed] ++ (cleanupTrace env true).1,
          acts ++ [.spawnCall] ++ (cleanupTrace env true).2⟩
    | .ok => .proceed errs (acts ++ [.spawnCall, .childCreated])

/-- The argument check and scratch-file creation of tease.c lines 80-95,
feeding into `preRunFrom`. -/
def preRun (env : Env) : PreOutcome :=
  if env.argc ≤ 1 then .earlyExit ⟨EXIT_FAILURE, [], [.usage], []⟩
  else if env.mkstempCwdOk then
    preRunFrom env [] [.mkstempAttempt true]
  else if env.mkstempTmpOk then
    preRunFrom env [.cwdFailed] [.mkstempAttempt true, .mkstempAttempt false]
  else
    .earlyExit ⟨EXIT_FAILURE, [], [.cwdFailed, .tmpFailed],
      [.mkstempAttempt true, .mkstempAttempt false]⟩

/-- Supervisor loop state: `last_size` (tease.c line 176) and
`printed_something` (line 180). -/
structure LoopSt where
  last_size : Nat
  printed : Bool
deriving DecidableEq

/-- How the poll loop ended: `break` on child success (carrying
`printed_something`), the child-failure dump branch (carrying `WIFEXITED`
and `WEXITSTATUS`), or the `waitpid`-failure `goto cleanup`. -/
inductive LoopOutcome
  | success (printed : Bool)
  | dumped (ifexited : Bool) (code : Nat)
  | waitfail
deriving DecidableEq

/-- Result of one loop iteration: continue with a new state, or stop with a
`LoopOutcome`. -/
inductive StepRes
  | next (st : LoopSt)
  | stop (o : LoopOutcome)
deriving DecidableEq

/-- The `waitpid` tail of a loop iteration (tease.c lines 226-258): on a
negative result, warn and `goto cleanup`; on zero, keep looping; on a
positive result set `exit_status = WEXITSTATUS(stat_loc)` and either
`break` (exited with status 0) or clear the line, dump the whole file and
`goto cleanup`. -/
def doWait (fileContent : List Nat) (ev : IterEvent) (st : LoopSt)
    (o : List OutEvent) (e : List ErrEvent) :
    StepRes × List OutEvent × List ErrEvent × List Act :=
  match ev.waitRes with
  | .fail => (.stop .waitfail, o, e ++ [.waitFailed], [.waitCheck])
  | .running => (.next st, o, e, [.waitCheck])
  | .done ifex code =>
      if ifex && code == 0 then
        (.stop (.success st.printed), o, e, [.waitCheck])
      else
        (.stop (.dumped ifex code),
          o ++ [.clearLine, .dump (dumpOutput fileContent)], e, [.waitCheck])

/-- One full iteration of the poll loop body (tease.c lines 181-259):
`fstat` failure only warns and still reaches `waitpid`; a grown file is
seeked and read — an `lseek` or `read` failure warns and `continue`s,
skipping the `waitpid` of this iteration; a successful read prints the
tail fragment, sets `printed_something` and advances `last_size` to the
stat-observed size, then reaches `waitpid`. -/
def loopStep (fileContent : List Nat) (ev : IterEvent) (st : LoopSt) :
    StepRes × List OutEvent × List ErrEvent × List Act :=
  match ev.statRes with
  | none => doWait fileContent ev st [] [.statFailed]
  | some size =>
      if st.last_size < size then
        if !ev.seekOk then (.next st, [], [.seekFailed], [])
        else
          match ev.readBytes with
          | none => (.next st, [], [.readFailed], [])
          | some w =>
              doWait fileContent ev ⟨size, true⟩ [.frag (printedFragment w)] []
      else doWait fileContent ev st [] []

/-- The poll loop (tease.c lines 181-259) run over a list of iteration
events: returns the outcome (`none` when the events are exhausted with the
loop still running) and the concatenated stdout, stderr, and action
traces. -/
def runLoop (fileContent : List Nat) (st : LoopSt) :
    List IterEvent → Option LoopOutcome × List OutEvent × List ErrEvent × List Act
  | [] => (none, [], [], [])
  | ev :: rest =>
      match loopStep fileContent ev st with
      | (.next st1, o, e, a) =>
          ((runLoop fileContent st1 rest).1,
            o ++ (runLoop fileContent st1 rest).2.1,
            e ++ (runLoop fileContent st1 rest).2.2.1,
            a ++ (runLoop fileContent st1 rest).2.2.2)
      | (.stop oc, o, e, a) => (some oc, o, e, a)

/-- A whole execution of `main` under environment `env`: the pre-loop part,
then — if the loop is reached — the poll loop, the success-path trailing
newline (tease.c lines 262-264), and the cleanup blocks; `none` when the
supplied iteration events run out with the child still running. -/
def run (env : Env) : Option Result :=
  match preRun env with
  | .earlyExit r => some r
  | .proceed e0 a0 =>
      match runLoop env.fileContent ⟨0, false⟩ env.iters with
      | (none, _, _, _) => none
      | (some oc, o, e, a) =>
          match oc with
          | .success printed =>
              some ⟨EXIT_SUCCESS, o ++ (if printed then [.newlineOut] else []),
                e0 ++ e ++ (cleanupTrace env true).1, a0 ++ a ++ (cleanupTrace env true).2⟩
          | .dumped _ code =>
              some ⟨code, o, e0 ++ e ++ (cleanupTrace env true).1,
                a0 ++ a ++ (cleanupTrace env true).2⟩
          | .waitfail =>
              some ⟨EXIT_SUCCESS, o, e0 ++ e ++ (cleanupTrace env true).1,
                a0 ++ a ++ (cleanupTrace env true).2⟩

/-- The loop outcome of an execution, `none` when the loop is never
entered or never ends within the supplied events. -/
def loopOutcome (env : Env) : Option LoopOutcome :=
  match preRun env with
  | .earlyExit _ => none
  | .proceed _ _ => (runLoop env.fileContent ⟨0, false⟩ env.iters).1

/-- The action trace accumulated by `preRun`, whichever way it ends. -/
def preRunActs : PreOutcome → List Act
  | .earlyExit r => r.acts
  | .proceed _ a => a

/-- Selects the bytes of a full-file dump event. -/
def dumpBytes : OutEvent → Option (List Nat)
  | .dump b => some b
  | _ => none

/-- Recognises the scratch-file `unlink` action. -/
def isUnlink : Act → Bool
  | .unlink _ => true
  | _ => false

/-- Recognises the scratch-file `close` action. -/
def isClose : Act → Bool
  | .closeFd => true
  | _ => false

/-- Recognises a `mkstemp` attempt action. -/
def isAttempt : Act → Bool
  | .mkstempAttempt _ => true
  | _ => false

/-- The scratch file was successfully created: a command argument was
given and one of the two `mkstemp` calls succeeded. -/
def scratchCreated (env : Env) : Prop :=
  1 < env.argc ∧ (env.mkstempCwdOk = true ∨ env.mkstempTmpOk = true)

/-- Dump events emitted by a step that ends with the given result: only the
child-failure branch dumps, and it dumps `dumpOutput fc`. -/
def dumpsOfStep (res : StepRes) (fc : List Nat) : List (List Nat) :=
  match res with
  | .stop (.dumped _ _) => [dumpOutput fc]
  | _ => []

/-- Dump events of a whole loop run ending in the given outcome. -/
def dumpsOfOutcome (oc : Option LoopOutcome) (fc : List Nat) : List (List Nat) :=
  match oc with
  | some (.dumped _ _) => [dumpOutput fc]
  | _ => []

/-- Exit status of an early exit, `none` when the loop is reached. -/
def preExit : PreOutcome → Option Nat
  | .earlyExit r => some r.exit
  | .proceed _ _ => none

/-- A poll-loop iteration skips its non-blocking child check: the stat saw
new bytes but the seek or the read failed, so the `continue` of tease.c
line 193 or 199 jumps to the next iteration before the `waitpid`. -/
def pollSkips (ev : IterEvent) (st : LoopSt) : Prop :=
  ∃ size, ev.statRes = some size ∧ st.last_size < size
    ∧ (ev.seekOk = false ∨ ev.readBytes = none)

/-- Window refuting claim C3 as stated: 500 bytes ending in a newline whose
only other newline sits at index 0. -/
def c3CexWindow : List Nat := 10 :: (List.replicate 498 97 ++ [10])

/-- Environment exhibiting the claim C1 bug: a command is given, the
scratch file is created in the cwd, and `posix_spawn_file_actions_init`
reports failure (tease.c line 118). -/
def c1FailEnv : Env :=
  ⟨2, true, true, false, true, true, .ok, [], [], true, true, true⟩

/-- Environment for the claim C2 counterexample: the child exits with code
3 after writing the bytes `A NUL B` to the scratch file. -/
def c2CexEnv : Env :=
  ⟨2, true, true, true, true, true, .ok,
    [⟨some 3, true, some [65, 0, 66], .done true 3⟩], [65, 0, 66], true, true, true⟩

/-- Environment for the claim C2 witness: the child exits with code 7
after writing `hi` (no NUL bytes). -/
def c2WitEnv : Env :=
  ⟨2, true, true, true, true, true, .ok,
    [⟨some 2, true, some [104, 105], .done true 7⟩], [104, 105], true, true, true⟩

/-- Environment for the claim C4 witness: a full successful run — the child
writes one byte, the tail is shown once, and the child exits 0. -/
def c4WitEnv : Env :=
  ⟨2, true, true, true, true, true, .ok,
    [⟨some 1, true, some [104], .done true 0⟩], [104], true, true, true⟩

/-- The result of running `c4WitEnv`. -/
def c4WitRes : Result :=
  ⟨EXIT_SUCCESS, [.frag [104], .newlineOut], [],
    [.mkstempAttempt true, .spawnCall, .childCreated, .waitCheck,
      .destroyFa, .unlink true, .closeFd]⟩

/-- Environment for the claim C4 counterexample: an unknown-command run,
one of the exit paths reached after the scratch file was created. -/
def c4CexEnv : Env :=
  ⟨2, true, true, true, true, true, .enoent, [], [], true, true, true⟩

/-- Environment for the claim C7 witness: both `mkstemp` calls fail. -/
def c7WitEnv : Env :=
  ⟨2, false, false, true, true, true, .ok, [], [], true, true, true⟩

/-- Environment for the claim C10 witness: the first iteration's stat
fails (warning only) and its `waitpid` fails. -/
def c10WitEnv : Env :=
  ⟨2, true, true, true, true, true, .ok,
    [⟨none, true, none, .fail⟩], [], true, true, true⟩

/-- The result of running `c10WitEnv`. -/
def c10WitRes : Result :=
  ⟨EXIT_SUCCESS, [], [.statFailed, .waitFailed],
    [.mkstempAttempt true, .spawnCall, .childCreated, .waitCheck,
      .destroyFa, .unlink true, .closeFd]⟩

theorem getD_mem (l : List Nat) (i : Nat) (h : i < l.length) : l.getD i 0 ∈ l := by
  rw [List.getD_eq_getElem l 0 h]
  exact List.getElem_mem h

theorem scanBack_eq (w : List Nat) (q : Nat) :
    scanBack w q = (lastNlBefore w q).getD 0 := by
  induction q with
  | zero => simp [scanBack, lastNlBefore]
  | succ p ih =>
      rw [lastNlBefore, List.range_succ, List.reverse_append, List.reverse_singleton,
        List.singleton_append]
      by_cases h : w.getD p 0 = 10
      · rw [List.find?_cons_of_pos _ (by simpa [List.getD_eq_getElem?_getD] using h)]
        rw [show scanBack w (p + 1) = if w.getD p 0 = 10 then p else scanBack w p from rfl,
          if_pos h]
        rfl
      · rw [List.find?_cons_of_neg _ (by simpa [List.getD_eq_getElem?_getD] using h)]
        rw [show scanBack w (p + 1) = if w.getD p 0 = 10 then p else scanBack w p from rfl,
          if_neg h, ih, lastNlBefore]

theorem scanBack_eq_zero (w : List Nat) (q : Nat) (h : ∀ i, i < q → w.getD i 0 ≠ 10) :
    scanBack w q = 0 := by
  induction q with
  | zero => rfl
  | succ p ih =>
      simp only [scanBack, if_neg (h p (Nat.lt_succ_self p))]
      exact ih (fun i hi => h i (Nat.lt_succ_of_lt hi))

theorem takeWhile_ne_zero_eq (l : List Nat) (h : ∀ b ∈ l, b ≠ 0) :
    l.takeWhile (fun b => b != 0) = l := by
  induction l with
  | nil => rfl
  | cons b t ih =>
      simp only [List.takeWhile_cons]
      rw [if_pos (by simpa using h b (by simp))]
      rw [ih (fun x hx => h x (by simp [hx]))]

theorem dumpOutputAux_of_ne_zero (fuel : Nat) (l : List Nat) (hf : l.length ≤ fuel)
    (h : ∀ b ∈ l, b ≠ 0) : dumpOutputAux fuel l = l := by
  induction fuel generalizing l with
  | zero =>
      cases l with
      | nil => rfl
      | cons b t => simp at hf
  | succ f ih =>
      cases l with
      | nil => rfl
      | cons b t =>
          have hlen : ((b :: t).drop (PRINT_BUF_SIZE - 1)).length ≤ f := by
            simp only [List.length_drop, List.length_cons] at hf ⊢
            unfold PRINT_BUF_SIZE
            omega
          show ((b :: t).take (PRINT_BUF_SIZE - 1)).takeWhile (fun x => x != 0)
              ++ dumpOutputAux f ((b :: t).drop (PRINT_BUF_SIZE - 1)) = b :: t
          rw [takeWhile_ne_zero_eq _ (fun x hx => h x (List.mem_of_mem_take hx))]
          rw [ih _ hlen (fun x hx => h x (List.mem_of_mem_drop hx))]
          exact List.take_append_drop _ _

theorem dumpOutput_of_ne_zero (l : List Nat) (h : ∀ b ∈ l, b ≠ 0) :
    dumpOutput l = l :=
  dumpOutputAux_of_ne_zero l.length l le_rfl h

set_option maxRecDepth 100000 in
/-- Claim C3, counterexample: on a 500-byte window ending in a newline whose
next-most-recent newline is at index 0, the fragment the code extracts is
not "everything strictly after the most recent newline before the trimmed
end": the code keeps the newline at index 0 and everything after it, because
`pos_of_nl + (pos_of_nl != 0)` adds nothing when the scan stops at index 0
(tease.c line 218). -/
theorem c3_counterexample :
    c3CexWindow.length = 500 ∧ c3CexWindow.getD 499 0 = 10 ∧
      extractFragment c3CexWindow ≠ c3SpecFragment c3CexWindow := by
  decide

/-- Claim C3, amended: for every 500-byte window whose final byte is a
newline, the extracted fragment drops that trailing newline and is
everything strictly after the most recent remaining newline when that
newline sits at a positive index; when the scan stops at index 0 (a newline
there, or none at all) the fragment is the whole trimmed window, including
a newline at index 0 if one is there. -/
theorem c3_tail_fragment_amended (w : List Nat) (hlen : w.length = 500)
    (hlast : w.getD 499 0 = 10) :
    extractFragment w = c3AmendedFragment w := by
  have h1 : w.length - 1 = 499 := by omega
  rw [extractFragment, trimmedWindow, c3AmendedFragment, h1, hlast, if_pos rfl,
    scanBack_eq]
  cases hnl : lastNlBefore w 499 with
  | none => simp
  | some i => by_cases hi : i = 0 <;> simp [hi]

set_option maxRecDepth 100000 in
theorem c3_tail_fragment_amended_witness :
    extractFragment (List.replicate 499 97 ++ [10]) =
      c3AmendedFragment (List.replicate 499 97 ++ [10]) :=
  c3_tail_fragment_amended _ (by decide) (by decide)

/-- Claim C5: TailReader's poll is idempotent when the file is unchanged:
for every state, a second `poll` against the same content yields no
fragment and leaves the state (both `last_size` and the window buffer)
exactly as the first call left it. -/
theorem c5_poll_idempotent (content : List Nat) (st : TailState) :
    poll content (poll content st).2 = (none, (poll content st).2) := by
  by_cases h : st.last_size < content.length <;> simp [poll, h]

/-- Claim C8: a window that — after dropping a trailing newline if present —
contains no newline at all yields the entire (trimmed) window as the
fragment: the backward scan finds nothing, stops at index 0, and the code
prints from the start of the window (truncated-from-the-left display, not
an error or an empty fragment). -/
theorem c8_no_newline_window (w : List Nat) (h : (10 : Nat) ∉ trimmedWindow w) :
    extractFragment w = trimmedWindow w := by
  have hz : scanBack w (w.length - 1) = 0 := by
    apply scanBack_eq_zero
    intro i hi hcon
    apply h
    rw [← hcon]
    unfold trimmedWindow
    split
    · have hlt : i < (w.take (w.length - 1)).length := by
        simp only [List.length_take]
        omega
      have heq : (w.take (w.length - 1)).getD i 0 = w.getD i 0 := by
        rw [List.getD_eq_getElem _ 0 hlt, List.getD_eq_getElem w 0 (by omega)]
        exact List.getElem_take _
      rw [← heq]
      exact getD_mem _ _ hlt
    · exact getD_mem _ _ (by omega)
  rw [extractFragment, hz]
  simp

theorem c8_no_newline_window_witness :
    extractFragment [97, 98, 99] = trimmedWindow [97, 98, 99] :=
  c8_no_newline_window [97, 98, 99] (by decide)

/-- Claim C9: if the scratch file has not shrunk between the `fstat` and
the `read` of one poll iteration and new bytes exist, the `read` of tease.c
line 197 returns between 1 and 500 bytes, so `last_line[nread] = 0` (index
`nread` ≤ 500) and the access at `nread - 1` (index ≥ 0) stay inside the
501-byte `last_line` buffer. -/
theorem c9_read_in_bounds (last_size st_size sizeAtRead : Nat)
    (hgrow : last_size < st_size) (hnoshrink : st_size ≤ sizeAtRead) :
    1 ≤ nreadOf st_size sizeAtRead ∧
      nreadOf st_size sizeAtRead ≤ HOW_MANY_BYTES_FROM_THE_END ∧
      nreadOf st_size sizeAtRead < HOW_MANY_BYTES_FROM_THE_END + 1 ∧
      nreadOf st_size sizeAtRead - 1 < HOW_MANY_BYTES_FROM_THE_END + 1 := by
  unfold nreadOf readOffset how_many_bytes HOW_MANY_BYTES_FROM_THE_END min
  split <;> split <;> omega

theorem c9_read_in_bounds_witness :
    1 ≤ nreadOf 3 3 ∧ nreadOf 3 3 ≤ HOW_MANY_BYTES_FROM_THE_END ∧
      nreadOf 3 3 < HOW_MANY_BYTES_FROM_THE_END + 1 ∧
      nreadOf 3 3 - 1 < HOW_MANY_BYTES_FROM_THE_END + 1 :=
  c9_read_in_bounds 0 3 3 (by decide) (by decide)

theorem doWait_acts (fc : List Nat) (ev : IterEvent) (st : LoopSt)
    (o : List OutEvent) (e : List ErrEvent) :
    (doWait fc ev st o e).2.2.2 = [Act.waitCheck] := by
  rcases ev with ⟨s, k, r, wr⟩
  rcases wr with _ | _ | ⟨ifex, code⟩
  · rfl
  · rfl
  · dsimp only [doWait]
    split <;> rfl

theorem loopStep_acts_mem (fc : List Nat) (ev : IterEvent) (st : LoopSt) :
    ∀ x ∈ (loopStep fc ev st).2.2.2, x = Act.waitCheck := by
  have hw : ∀ st1 o e, ∀ x ∈ (doWait fc ev st1 o e).2.2.2, x = Act.waitCheck := by
    intro st1 o e x hx
    rw [doWait_acts] at hx
    simpa using hx
  rcases ev with ⟨s, k, r, wr⟩
  cases s with
  | none => exact hw _ _ _
  | some size =>
      dsimp only [loopStep]
      by_cases hgt : st.last_size < size
      · rw [if_pos hgt]
        cases k with
        | false => intro x hx; simp at hx
        | true =>
            cases r with
            | none => intro x hx; simp at hx
            | some w => exact hw _ _ _
      · rw [if_neg hgt]
        exact hw _ _ _

theorem runLoop_acts (fc : List Nat) (evs : List IterEvent) (st : LoopSt) :
    ∀ x ∈ (runLoop fc st evs).2.2.2, x = Act.waitCheck := by
  induction evs generalizing st with
  | nil => intro x hx; simp [runLoop] at hx
  | cons ev rest ih =>
      intro x hx
      rcases hs : loopStep fc ev st with ⟨res, o, e, a⟩
      have ha : ∀ y ∈ a, y = Act.waitCheck := by
        have hm := loopStep_acts_mem fc ev st
        rw [hs] at hm
        exact hm
      cases res with
      | next st1 =>
          rw [runLoop, hs] at hx
          simp only [List.mem_append] at hx
          rcases hx with hx | hx
          · exact ha x hx
          · exact ih st1 x hx
      | stop oc =>
          rw [runLoop, hs] at hx
          exact ha x hx

theorem doWait_dumps (fc : List Nat) (ev : IterEvent) (st : LoopSt)
    (o : List OutEvent) (e : List ErrEvent) (ho : o.filterMap dumpBytes = []) :
    (doWait fc ev st o e).2.1.filterMap dumpBytes
      = dumpsOfStep (doWait fc ev st o e).1 fc := by
  rcases ev with ⟨s, k, r, wr⟩
  rcases wr with _ | _ | ⟨ifex, code⟩
  · exact ho
  · exact ho
  · dsimp only [doWait]
    split
    · exact ho
    · simp [dumpsOfStep, dumpBytes, ho]

theorem loopStep_dumps (fc : List Nat) (ev : IterEvent) (st : LoopSt) :
    (loopStep fc ev st).2.1.filterMap dumpBytes
      = dumpsOfStep (loopStep fc ev st).1 fc := by
  rcases ev with ⟨s, k, r, wr⟩
  cases s with
  | none => exact doWait_dumps _ _ _ _ _ rfl
  | some size =>
      dsimp only [loopStep]
      by_cases hgt : st.last_size < size
      · rw [if_pos hgt]
        cases k with
        | false => rfl
        | true =>
            cases r with
            | none => rfl
            | some w => exact doWait_dumps _ _ _ _ _ (by simp [dumpBytes])
      · rw [if_neg hgt]
        exact doWait_dumps _ _ _ _ _ rfl

theorem runLoop_dumps (fc : List Nat) (evs : List IterEvent) (st : LoopSt) :
    (runLoop fc st evs).2.1.filterMap dumpBytes
      = dumpsOfOutcome (runLoop fc st evs).1 fc := by
  induction evs generalizing st with
  | nil => rfl
  | cons ev rest ih =>
      rcases hs : loopStep fc ev st with ⟨res, o, e, a⟩
      have hd := loopStep_dumps fc ev st
      rw [hs] at hd
      cases res with
      | next st1 =>
          rw [runLoop, hs]
          dsimp only
          rw [List.filterMap_append, hd, ih st1]
          rfl
      | stop oc =>
          rw [runLoop, hs]
          dsimp only
          rw [hd]
          cases oc <;> rfl

theorem doWait_waitfail_err (fc : List Nat) (ev : IterEvent) (st : LoopSt)
    (o : List OutEvent) (e : List ErrEvent)
    (h : (doWait fc ev st o e).1 = .stop .waitfail) :
    ErrEvent.waitFailed ∈ (doWait fc ev st o e).2.2.1 := by
  rcases ev with ⟨s, k, r, wr⟩
  rcases wr with _ | _ | ⟨ifex, code⟩
  · simp [doWait]
  · simp [doWait] at h
  · dsimp only [doWait] at h ⊢
    split at h <;> simp_all

theorem loopStep_waitfail_err (fc : List Nat) (ev : IterEvent) (st : LoopSt)
    (h : (loopStep fc ev st).1 = .stop .waitfail) :
    ErrEvent.waitFailed ∈ (loopStep fc ev st).2.2.1 := by
  rcases ev with ⟨s, k, r, wr⟩
  cases s with
  | none => exact doWait_waitfail_err _ _ _ _ _ h
  | some size =>
      dsimp only [loopStep] at h ⊢
      by_cases hgt : st.last_size < size
      · rw [if_pos hgt] at h ⊢
        cases k with
        | false => simp at h
        | true =>
            cases r with
            | none => simp at h
            | some w => exact doWait_waitfail_err _ _ _ _ _ h
      · rw [if_neg hgt] at h ⊢
        exact doWait_waitfail_err _ _ _ _ _ h

theorem runLoop_waitfail_err (fc : List Nat) (evs : List IterEvent) (st : LoopSt)
    (h : (runLoop fc st evs).1 = some .waitfail) :
    ErrEvent.waitFailed ∈ (runLoop fc st evs).2.2.1 := by
  induction evs generalizing st with
  | nil => simp [runLoop] at h
  | cons ev rest ih =>
      rcases hs : loopStep fc ev st with ⟨res, o, e, a⟩
      cases res with
      | next st1 =>
          rw [runLoop, hs] at h ⊢
          dsimp only at h ⊢
          rw [List.mem_append]
          exact Or.inr (ih st1 h)
      | stop oc =>
          rw [runLoop, hs] at h ⊢
          dsimp only at h ⊢
          have hoc : oc = .waitfail := by
            cases h
            rfl
          subst hoc
          have hstep : (loopStep fc ev st).1 = .stop .waitfail := by
            rw [hs]
          have := loopStep_waitfail_err fc ev st hstep
          rw [hs] at this
          exact this

theorem cleanupTrace_filter (env : Env) (wd : Bool) :
    (cleanupTrace env wd).2.filter (fun a => isUnlink a || isClose a)
      = [Act.unlink env.mkstempCwdOk, Act.closeFd] := by
  unfold cleanupTrace
  cases wd <;> simp [isUnlink, isClose]

theorem cleanupTrace_err_unlink (env : Env) (wd : Bool) (hul : env.unlinkOk = false) :
    ErrEvent.pleaseDeleteMsg env.mkstempCwdOk ∈ (cleanupTrace env wd).1 := by
  unfold cleanupTrace
  cases wd <;> simp [hul]

theorem preRunFrom_proceed (env : Env) (errs : List ErrEvent) (acts : List Act)
    (e0 : List ErrEvent) (a0 : List Act)
    (h : preRunFrom env errs acts = .proceed e0 a0) :
    e0 = errs ∧ a0 = acts ++ [Act.spawnCall, Act.childCreated] := by
  unfold preRunFrom at h
  split at h
  · cases h
  · split at h
    · cases h
    · split at h
      · cases h
      · split at h
        · cases h
        · cases h
        · cases h
          exact ⟨rfl, rfl⟩

theorem preRun_proceed_acts (env : Env) (e0 : List ErrEvent) (a0 : List Act)
    (h : preRun env = .proceed e0 a0) :
    a0 = (if env.mkstempCwdOk then [Act.mkstempAttempt true]
          else [Act.mkstempAttempt true, Act.mkstempAttempt false])
        ++ [Act.spawnCall, Act.childCreated] := by
  unfold preRun at h
  split at h
  · cases h
  · split at h
    · obtain ⟨-, ha⟩ := preRunFrom_proceed _ _ _ _ _ h
      rw [ha, if_pos (by assumption)]
    · split at h
      · obtain ⟨-, ha⟩ := preRunFrom_proceed _ _ _ _ _ h
        rw [ha, if_neg (by assumption)]
      · cases h

theorem preRun_earlyExit_cleanup (env : Env) (r : Result)
    (h : preRun env = .earlyExit r) (hargc : 1 < env.argc)
    (hmk : env.mkstempCwdOk = true ∨ env.mkstempTmpOk = true) :
    r.acts.filter (fun a => isUnlink a || isClose a)
        = [Act.unlink env.mkstempCwdOk, Act.closeFd]
      ∧ (env.unlinkOk = false → ErrEvent.pleaseDeleteMsg env.mkstempCwdOk ∈ r.err) := by
  unfold preRun preRunFrom at h
  split at h
  · omega
  · split at h
    all_goals repeat' split at h
    all_goals
      first
        | (cases h
           refine ⟨?_, fun hul => ?_⟩
           · simp only [List.filter_append, cleanupTrace_filter]
             simp [isUnlink, isClose]
           · simp [List.mem_append, cleanupTrace_err_unlink env, hul])
        | exact PreOutcome.noConfusion h
        | simp_all

theorem preExit_unlink (env : Env) (b : Bool) :
    preExit (preRun { env with unlinkOk := b }) = preExit (preRun env) := by
  rcases env with ⟨argc, cwd, tmp, init, d1, d2, sp, iters, fc, ul, cl, de⟩
  by_cases h1 : argc ≤ 1
  · simp [preRun, h1, preExit]
  · cases cwd <;> cases tmp <;> cases init <;> cases d1 <;> cases d2 <;> cases sp <;>
      simp [preRun, preRunFrom, h1, preExit]

theorem run_exit_eq (env : Env) :
    (run env).map Result.exit
      = match preExit (preRun env),
          (runLoop env.fileContent ⟨0, false⟩ env.iters).1 with
        | some x, _ => some x
        | none, none => none
        | none, some (.success _) => some EXIT_SUCCESS
        | none, some (.dumped _ code) => some code
        | none, some .waitfail => some EXIT_SUCCESS := by
  cases hp : preRun env with
  | earlyExit r => simp [run, hp, preExit]
  | proceed e0 a0 =>
      rcases hr : runLoop env.fileContent ⟨0, false⟩ env.iters with ⟨oc, o, e, a⟩
      rcases oc with _ | oc0
      · simp [run, hp, hr, preExit]
      · cases oc0 <;> simp [run, hp, hr, preExit]

theorem run_exit_unlink (env : Env) (b : Bool) :
    (run { env with unlinkOk := b }).map Result.exit = (run env).map Result.exit := by
  rw [run_exit_eq, run_exit_eq, preExit_unlink]

/-- Claim C1 (code bug): on the spawn-setup failure path — here
`posix_spawn_file_actions_init` failing at tease.c line 118 — the program
prints the diagnostic and goes to cleanup, but `exit_status` was never set,
so it returns `EXIT_SUCCESS` (0), not a nonzero code as the claim states;
no child was created. -/
theorem c1_setup_failure_exit_zero :
    run c1FailEnv
        = some ⟨EXIT_SUCCESS, [], [ErrEvent.initFailed],
            [Act.mkstempAttempt true, Act.unlink true, Act.closeFd]⟩
      ∧ EXIT_SUCCESS = 0
      ∧ Act.childCreated ∉ [Act.mkstempAttempt true, Act.unlink true, Act.closeFd] :=
  ⟨rfl, rfl, by decide⟩

/-- Claim C2, counterexample: the child exits with nonzero code 3, but the
dump printed for the scratch content `[65, 0, 66]` is only `[65]`: the dump
loop of tease.c lines 247-250 prints each chunk with `printf("%s", buf)`,
which stops at the first NUL byte, so the output is not the file content
byte-for-byte. -/
theorem c2_counterexample :
    loopOutcome c2CexEnv = some (LoopOutcome.dumped true 3)
      ∧ (run c2CexEnv).map (fun r => r.out.filterMap dumpBytes) = some [[65]]
      ∧ ([[65]] : List (List Nat)) ≠ [c2CexEnv.fileContent] :=
  ⟨rfl, rfl, by decide⟩

/-- Claim C2, amended: for every run whose poll loop observes the child
exit (`WIFEXITED`) with a nonzero code `K`, the program's own exit code is
`K` and exactly one full-file dump is printed to standard output; the dump
is the scratch content with each 8191-byte chunk cut at its first NUL byte,
which is the entire content byte-for-byte whenever the content has no NUL
byte. -/
theorem c2_child_failure_dump (env : Env) (K : Nat) (_hK : K ≠ 0)
    (h : loopOutcome env = some (LoopOutcome.dumped true K)) :
    ∃ r, run env = some r ∧ r.exit = K
      ∧ r.out.filterMap dumpBytes = [dumpOutput env.fileContent]
      ∧ ((∀ x ∈ env.fileContent, x ≠ 0) →
          r.out.filterMap dumpBytes = [env.fileContent]) := by
  cases hp : preRun env with
  | earlyExit r0 => simp [loopOutcome, hp] at h
  | proceed e0 a0 =>
      rcases hr : runLoop env.fileContent ⟨0, false⟩ env.iters with ⟨oc, o, e, a⟩
      have hoc : oc = some (.dumped true K) := by
        simpa [loopOutcome, hp, hr] using h
      subst hoc
      have hd := runLoop_dumps env.fileContent env.iters ⟨0, false⟩
      rw [hr] at hd
      refine ⟨_, by rw [run, hp, hr], rfl, ?_, ?_⟩
      · exact hd
      · intro hx
        rw [hd]
        show dumpsOfOutcome (some (.dumped true K)) env.fileContent = [env.fileContent]
        rw [show dumpsOfOutcome (some (.dumped true K)) env.fileContent
            = [dumpOutput env.fileContent] from rfl]
        rw [dumpOutput_of_ne_zero env.fileContent hx]

theorem c2_child_failure_dump_witness :
    ∃ r, run c2WitEnv = some r ∧ r.exit = 7
      ∧ r.out.filterMap dumpBytes = [dumpOutput c2WitEnv.fileContent]
      ∧ ((∀ x ∈ c2WitEnv.fileContent, x ≠ 0) →
          r.out.filterMap dumpBytes = [c2WitEnv.fileContent]) :=
  c2_child_failure_dump c2WitEnv 7 (by decide) rfl

/-- Claim C4 (amended): on every terminating path reached after the scratch
file was created, the cleanup runs exactly once — the action trace contains
exactly the `unlink` of the chosen scratch name followed by the `close` of
its descriptor (delete, then close: tease.c lines 271-286, the opposite
order to the claim's "close, then delete") — a deletion failure only adds
warnings to stderr, and the exit code does not depend on whether the
deletion succeeds. -/
theorem c4_cleanup_amended (env : Env) (r : Result) (h : run env = some r)
    (hc : scratchCreated env) :
    r.acts.filter (fun a => isUnlink a || isClose a)
        = [Act.unlink env.mkstempCwdOk, Act.closeFd]
      ∧ (env.unlinkOk = false → ErrEvent.pleaseDeleteMsg env.mkstempCwdOk ∈ r.err)
      ∧ (∀ b, (run { env with unlinkOk := b }).map Result.exit = some r.exit) := by
  obtain ⟨hargc, hmk⟩ := hc
  have hinv : ∀ b, (run { env with unlinkOk := b }).map Result.exit = some r.exit := by
    intro b
    rw [run_exit_unlink env b, h]
    rfl
  cases hp : preRun env with
  | earlyExit r0 =>
      have hrun : run env = some r0 := by rw [run, hp]
      rw [hrun] at h
      cases h
      obtain ⟨h1, h2⟩ := preRun_earlyExit_cleanup env r hp hargc hmk
      exact ⟨h1, h2, hinv⟩
  | proceed e0 a0 =>
      rcases hr : runLoop env.fileContent ⟨0, false⟩ env.iters with ⟨oc, o, e, a⟩
      have hfa : a.filter (fun x => isUnlink x || isClose x) = [] := by
        rw [List.filter_eq_nil_iff]
        intro x hx
        have hx1 := runLoop_acts env.fileContent env.iters ⟨0, false⟩ x (by rw [hr]; exact hx)
        subst hx1
        simp [isUnlink, isClose]
      have hfa0 : a0.filter (fun x => isUnlink x || isClose x) = [] := by
        rw [preRun_proceed_acts env e0 a0 hp]
        cases hcwd : env.mkstempCwdOk <;> simp [hcwd, isUnlink, isClose]
      rcases oc with _ | oc0
      · rw [run, hp, hr] at h
        cases h
      · cases oc0 with
        | success printed =>
            have hrun : run env
                = some ⟨EXIT_SUCCESS, o ++ (if printed then [.newlineOut] else []),
                    e0 ++ e ++ (cleanupTrace env true).1,
                    a0 ++ a ++ (cleanupTrace env true).2⟩ := by
              rw [run, hp, hr]
            rw [hrun] at h
            cases h
            refine ⟨?_, fun hul => ?_, hinv⟩
            · simp only [List.filter_append, cleanupTrace_filter, hfa, hfa0]
              simp
            · simp [List.mem_append, cleanupTrace_err_unlink env, hul]
        | dumped ifex code =>
            have hrun : run env
                = some ⟨code, o, e0 ++ e ++ (cleanupTrace env true).1,
                    a0 ++ a ++ (cleanupTrace env true).2⟩ := by
              rw [run, hp, hr]
            rw [hrun] at h
            cases h
            refine ⟨?_, fun hul => ?_, hinv⟩
            · simp only [List.filter_append, cleanupTrace_filter, hfa, hfa0]
              simp
            · simp [List.mem_append, cleanupTrace_err_unlink env, hul]
        | waitfail =>
            have hrun : run env
                = some ⟨EXIT_SUCCESS, o, e0 ++ e ++ (cleanupTrace env true).1,
                    a0 ++ a ++ (cleanupTrace env true).2⟩ := by
              rw [run, hp, hr]
            rw [hrun] at h
            cases h
            refine ⟨?_, fun hul => ?_, hinv⟩
            · simp only [List.filter_append, cleanupTrace_filter, hfa, hfa0]
              simp
            · simp [List.mem_append, cleanupTrace_err_unlink env, hul]

theorem c4_cleanup_amended_witness :
    c4WitRes.acts.filter (fun a => isUnlink a || isClose a)
        = [Act.unlink c4WitEnv.mkstempCwdOk, Act.closeFd]
      ∧ (c4WitEnv.unlinkOk = false →
          ErrEvent.pleaseDeleteMsg c4WitEnv.mkstempCwdOk ∈ c4WitRes.err)
      ∧ (∀ b, (run { c4WitEnv with unlinkOk := b }).map Result.exit
          = some c4WitRes.exit) :=
  c4_cleanup_amended c4WitEnv c4WitRes rfl ⟨by decide, Or.inl rfl⟩

/-- Claim C4, counterexample: on the unknown-command exit path the cleanup
actions are `destroy`, then `unlink` (delete), then `close` — the first
scratch-file cleanup action is the `unlink`, not the `close`, so the
claim's "(close, then delete)" order is false on the code, which unlinks at
tease.c line 273 and closes at line 284. -/
theorem c4_counterexample :
    run c4CexEnv
        = some ⟨EXIT_FAILURE, [], [ErrEvent.unknownCommand],
            [Act.mkstempAttempt true, Act.spawnCall, Act.destroyFa,
              Act.unlink true, Act.closeFd]⟩
      ∧ [Act.mkstempAttempt true, Act.spawnCall, Act.destroyFa,
          Act.unlink true, Act.closeFd].filter (fun a => isUnlink a || isClose a)
          = [Act.unlink true, Act.closeFd]
      ∧ [Act.unlink true, Act.closeFd] ≠ [Act.closeFd, Act.unlink true] :=
  ⟨rfl, rfl, by decide⟩

/-- Claim C6, counterexample: an iteration whose stat reports 5 new bytes
and whose seek fails performs no `waitpid` at all — the `continue` of
tease.c line 193 skips the non-blocking child check for that iteration, so
a seek warning does delay exit detection past the iteration. -/
theorem c6_counterexample :
    Act.waitCheck ∉ (loopStep [] ⟨some 5, false, none, WaitRes.running⟩ ⟨0, false⟩).2.2.2 := by
  decide

/-- Claim C6, amended: an iteration of the poll loop performs the
non-blocking child check if and only if it is not an iteration in which the
stat saw new bytes and then the seek or the read failed; in particular a
stat failure still reaches the check, but a seek or read failure
`continue`s past it, deferring exit detection to the next iteration. -/
theorem c6_wait_check_amended (fc : List Nat) (ev : IterEvent) (st : LoopSt) :
    Act.waitCheck ∈ (loopStep fc ev st).2.2.2 ↔ ¬ pollSkips ev st := by
  rcases ev with ⟨s, k, r, wr⟩
  cases s with
  | none =>
      have ha : (loopStep fc ⟨none, k, r, wr⟩ st).2.2.2 = [Act.waitCheck] :=
        doWait_acts fc ⟨none, k, r, wr⟩ st [] [.statFailed]
      rw [ha]
      simp [pollSkips]
  | some size =>
      by_cases hgt : st.last_size < size
      · cases k with
        | false =>
            have ha : (loopStep fc ⟨some size, false, r, wr⟩ st).2.2.2 = [] := by
              simp [loopStep, hgt]
            rw [ha]
            simp only [List.not_mem_nil, false_iff, not_not]
            exact ⟨size, rfl, hgt, Or.inl rfl⟩
        | true =>
            cases r with
            | none =>
                have ha : (loopStep fc ⟨some size, true, none, wr⟩ st).2.2.2 = [] := by
                  simp [loopStep, hgt]
                rw [ha]
                simp only [List.not_mem_nil, false_iff, not_not]
                exact ⟨size, rfl, hgt, Or.inr rfl⟩
            | some w =>
                have ha : (loopStep fc ⟨some size, true, some w, wr⟩ st).2.2.2
                    = [Act.waitCheck] := by
                  have hd := doWait_acts fc ⟨some size, true, some w, wr⟩ ⟨size, true⟩
                    [.frag (printedFragment w)] []
                  simpa [loopStep, hgt] using hd
                rw [ha]
                simp [pollSkips, hgt]
      · have ha : (loopStep fc ⟨some size, k, r, wr⟩ st).2.2.2 = [Act.waitCheck] := by
          have hd := doWait_acts fc ⟨some size, k, r, wr⟩ st [] []
          simpa [loopStep, hgt] using hd
        rw [ha]
        simp [pollSkips, hgt]

/-- Claim C7: scratch-file creation tries the cwd name first and retries
exactly once in /tmp only when the cwd attempt failed; when both attempts
fail the program terminates with `EXIT_FAILURE` before any spawn action,
with both failure diagnostics (naming the cwd and /tmp attempts) on
stderr. -/
theorem c7_scratch_fallback (env : Env) (hargc : 1 < env.argc) :
    (preRunActs (preRun env)).filter isAttempt
        = (if env.mkstempCwdOk then [Act.mkstempAttempt true]
           else [Act.mkstempAttempt true, Act.mkstempAttempt false])
      ∧ (env.mkstempCwdOk = false → env.mkstempTmpOk = false →
          run env = some ⟨EXIT_FAILURE, [], [ErrEvent.cwdFailed, ErrEvent.tmpFailed],
            [Act.mkstempAttempt true, Act.mkstempAttempt false]⟩) := by
  constructor
  · rcases env with ⟨argc, cwd, tmp, init, d1, d2, sp, iters, fc, ul, cl, de⟩
    have h1 : ¬ argc ≤ 1 := by simp at hargc ⊢; omega
    cases cwd <;> cases tmp <;> cases init <;> cases d1 <;> cases d2 <;> cases sp <;>
      simp [preRun, preRunFrom, preRunActs, cleanupTrace, h1, isAttempt]
  · intro hcwd htmp
    have h1 : ¬ env.argc ≤ 1 := by omega
    simp [run, preRun, h1, hcwd, htmp]

theorem c7_scratch_fallback_witness :
    (preRunActs (preRun c7WitEnv)).filter isAttempt
        = (if c7WitEnv.mkstempCwdOk then [Act.mkstempAttempt true]
           else [Act.mkstempAttempt true, Act.mkstempAttempt false])
      ∧ (c7WitEnv.mkstempCwdOk = false → c7WitEnv.mkstempTmpOk = false →
          run c7WitEnv = some ⟨EXIT_FAILURE, [],
            [ErrEvent.cwdFailed, ErrEvent.tmpFailed],
            [Act.mkstempAttempt true, Act.mkstempAttempt false]⟩) :=
  c7_scratch_fallback c7WitEnv (by decide)

/-- Claim C10: when the poll loop ends because `waitpid` failed before any
child exit was observed, the program goes straight to cleanup with
`exit_status` still at its initial `EXIT_SUCCESS`, so after the
wait-failure warning it returns exit code 0 — and the scratch cleanup
(unlink and close) still runs exactly once. -/
theorem c10_wait_failure_exit_zero (env : Env) (r : Result) (h : run env = some r)
    (hw : loopOutcome env = some LoopOutcome.waitfail) :
    r.exit = EXIT_SUCCESS ∧ ErrEvent.waitFailed ∈ r.err
      ∧ r.acts.filter (fun a => isUnlink a || isClose a)
          = [Act.unlink env.mkstempCwdOk, Act.closeFd] := by
  cases hp : preRun env with
  | earlyExit r0 => simp [loopOutcome, hp] at hw
  | proceed e0 a0 =>
      rcases hr : runLoop env.fileContent ⟨0, false⟩ env.iters with ⟨oc, o, e, a⟩
      have hoc : oc = some .waitfail := by
        simpa [loopOutcome, hp, hr] using hw
      subst hoc
      have hfa : a.filter (fun x => isUnlink x || isClose x) = [] := by
        rw [List.filter_eq_nil_iff]
        intro x hx
        have hx1 := runLoop_acts env.fileContent env.iters ⟨0, false⟩ x (by rw [hr]; exact hx)
        subst hx1
        simp [isUnlink, isClose]
      have hfa0 : a0.filter (fun x => isUnlink x || isClose x) = [] := by
        rw [preRun_proceed_acts env e0 a0 hp]
        cases hcwd : env.mkstempCwdOk <;> simp [hcwd, isUnlink, isClose]
      have hwf : ErrEvent.waitFailed ∈ e := by
        have he := runLoop_waitfail_err env.fileContent env.iters ⟨0, false⟩ (by rw [hr])
        rw [hr] at he
        exact he
      have hrun : run env
          = some ⟨EXIT_SUCCESS, o, e0 ++ e ++ (cleanupTrace env true).1,
              a0 ++ a ++ (cleanupTrace env true).2⟩ := by
        rw [run, hp, hr]
      rw [hrun] at h
      cases h
      refine ⟨rfl, ?_, ?_⟩
      · simp [List.mem_append, hwf]
      · simp only [List.filter_append, cleanupTrace_filter, hfa, hfa0]
        simp

theorem c10_wait_failure_exit_zero_witness :
    c10WitRes.exit = EXIT_SUCCESS ∧ ErrEvent.waitFailed ∈ c10WitRes.err
      ∧ c10WitRes.acts.filter (fun a => isUnlink a || isClose a)
          = [Act.unlink c10WitEnv.mkstempCwdOk, Act.closeFd] :=
  c10_wait_failure_exit_zero c10WitEnv c10WitRes rfl rfl

end Tease
